import Mathlib

/-!
Shallow embedding of the SIMD transform core of `case05_simd_sse2_avx`
(`Source/Simd/simd_software.cpp`, `simd_sse2.cpp`, `simd_avx.cpp`,
`Source/main.cpp`, `Source/VertexStruct.h`).

Modelling choices:

* 32-bit floats are abstracted to a type `F` carrying a multiplication
  `Mul F`.  Every kernel applies the very same multiply `· * fScale` to the
  same operands, so equalities proved over an arbitrary `(F, *)` transfer to
  the IEEE binary32 instantiation bit for bit (the kernels perform no
  reductions and no reassociation).
* A raw buffer (`AoSVertex*` resp. the `float*` axis arrays of `SoAVertexs`)
  is modelled as total memory `ℕ → F` indexed by element; a store is a
  pointwise function update.  Input and output buffers are distinct
  parameters, which models the `__restrict` no-aliasing precondition.
* Each C++ `for` loop is rendered as structural recursion on the number of
  elements not yet reached by the loop counter: for a loop
  `for (i = 0; i + W <= nCount; i += W)` the recursive argument `rem`
  maintains `rem = nCount - i`, so the guard `i + W <= nCount` is exactly
  the pattern `rem = r + W`.
-/

/-- `struct alignas(16) AoSVertex { float x, y, z, w; }` from
`VertexStruct.h`, over the abstract float type `F`. -/
structure AoSVertex (F : Type) where
  x : F
  y : F
  z : F
  w : F
deriving DecidableEq

/-- `struct SoAVertexs { std::vector<float> x, y, z; }` from
`VertexStruct.h`: three independent axis buffers, each modelled as total
memory `ℕ → F`. -/
structure SoAVertexs (F : Type) where
  x : ℕ → F
  y : ℕ → F
  z : ℕ → F

/-- Loop body of `Transform_Scalar_AoS` (simd_software.cpp): the iteration
for index `i` performs the three field stores
`pOut[i].x = pIn[i].x * fScale; pOut[i].y = ...; pOut[i].z = ...` and leaves
`pOut[i].w` as it was.  `rem` counts the iterations still to run
(`rem = nCount - i`). -/
def scalarAoS_go {F : Type} [Mul F] (fScale : F) (pIn : ℕ → AoSVertex F)
    (i : ℕ) (rem : ℕ) (pOut : ℕ → AoSVertex F) : ℕ → AoSVertex F :=
  match rem with
  | r + 1 =>
      scalarAoS_go fScale pIn (i + 1) r
        (fun j =>
          if j = i then
            { pOut i with
                x := (pIn i).x * fScale
                y := (pIn i).y * fScale
                z := (pIn i).z * fScale }
          else pOut j)
  | 0 => pOut

/-- `Transform_Scalar_AoS(pIn, pOut, nCount, fScale)` from
simd_software.cpp: scalar loop over every index `0 ≤ i < nCount`. -/
def Transform_Scalar_AoS {F : Type} [Mul F] (pIn pOut : ℕ → AoSVertex F)
    (nCount : ℕ) (fScale : F) : ℕ → AoSVertex F :=
  scalarAoS_go fScale pIn 0 nCount pOut

/-- Pointwise characterisation of the scalar AoS loop: index `j` holds the
scaled x/y/z (w untouched) exactly when the loop reached it. -/
theorem scalarAoS_go_apply {F : Type} [Mul F] (fScale : F)
    (pIn : ℕ → AoSVertex F) (rem : ℕ) :
    ∀ (i : ℕ) (pOut : ℕ → AoSVertex F) (j : ℕ),
      scalarAoS_go fScale pIn i rem pOut j =
        if i ≤ j ∧ j < i + rem then
          { pOut j with
              x := (pIn j).x * fScale
              y := (pIn j).y * fScale
              z := (pIn j).z * fScale }
        else pOut j := by
  induction rem with
  | zero =>
      intro i pOut j
      simp only [scalarAoS_go]
      rw [if_neg (by omega)]
  | succ r ih =>
      intro i pOut j
      simp only [scalarAoS_go]
      rw [ih]
      split_ifs <;> first | rfl | omega | simp_all

/-- Loop body of `Transform_Scalar_SoA` (simd_software.cpp): one iteration
stores `pXo[i] = pX[i] * fScale` and likewise for y and z.  `rem` counts the
iterations still to run (`rem = nCount - i`). -/
def scalarSoA_go {F : Type} [Mul F] (fScale : F) (pX pY pZ : ℕ → F)
    (i : ℕ) (rem : ℕ) (pXo pYo pZo : ℕ → F) :
    (ℕ → F) × (ℕ → F) × (ℕ → F) :=
  match rem with
  | r + 1 =>
      scalarSoA_go fScale pX pY pZ (i + 1) r
        (fun j => if j = i then pX i * fScale else pXo j)
        (fun j => if j = i then pY i * fScale else pYo j)
        (fun j => if j = i then pZ i * fScale else pZo j)
  | 0 => (pXo, pYo, pZo)

/-- `Transform_Scalar_SoA(pIn, pOut, nCount, fScale)` from
simd_software.cpp: per-axis scalar loop over every index `0 ≤ i < nCount`. -/
def Transform_Scalar_SoA {F : Type} [Mul F] (pIn pOut : SoAVertexs F)
    (nCount : ℕ) (fScale : F) : SoAVertexs F :=
  let r := scalarSoA_go fScale pIn.x pIn.y pIn.z 0 nCount pOut.x pOut.y pOut.z
  ⟨r.1, r.2.1, r.2.2⟩

/-- The effect of `MULPS`/`VMULPS` on one whole `AoSVertex`: the 16-byte
`_mm_load_ps` (resp. half of the 32-byte `_mm256_load_ps`) covers all four
fields x, y, z, w of the vertex, and every lane is multiplied by the
broadcast scale. -/
def scaleVertex {F : Type} [Mul F] (fScale : F) (v : AoSVertex F) :
    AoSVertex F :=
  ⟨v.x * fScale, v.y * fScale, v.z * fScale, v.w * fScale⟩

/-- Loop body of `Transform_SSE2_AoS` (simd_sse2.cpp): one iteration loads
the full 16-byte vertex `pIn[i]` with `MOVAPS`, multiplies all four lanes
with `MULPS`, and stores the full vertex to `pOut[i]`.  Step is one vertex;
`rem = nCount - i`. -/
def sse2AoS_go {F : Type} [Mul F] (fScale : F) (pIn : ℕ → AoSVertex F)
    (i : ℕ) (rem : ℕ) (pOut : ℕ → AoSVertex F) : ℕ → AoSVertex F :=
  match rem with
  | r + 1 =>
      sse2AoS_go fScale pIn (i + 1) r
        (fun j => if j = i then scaleVertex fScale (pIn i) else pOut j)
  | 0 => pOut

/-- `Transform_SSE2_AoS(pIn, pOut, nCount, fScale)` from simd_sse2.cpp:
loop `for (i = 0; i < nCount; ++i)`, one vertex per `__m128`. -/
def Transform_SSE2_AoS {F : Type} [Mul F] (pIn pOut : ℕ → AoSVertex F)
    (nCount : ℕ) (fScale : F) : ℕ → AoSVertex F :=
  sse2AoS_go fScale pIn 0 nCount pOut

/-- Loop body of `Transform_AVX_AoS` (simd_avx.cpp): one iteration loads the
32 bytes holding vertices `pIn[i]` and `pIn[i+1]` with `VMOVAPS`, multiplies
all eight lanes with `VMULPS`, and stores both vertices back.  The loop
guard is `i + 2 <= nCount`, i.e. the pattern `rem = r + 2` with
`rem = nCount - i`; a trailing remainder of 0 or 1 vertices is not
processed. -/
def avxAoS_go {F : Type} [Mul F] (fScale : F) (pIn : ℕ → AoSVertex F)
    (i : ℕ) (rem : ℕ) (pOut : ℕ → AoSVertex F) : ℕ → AoSVertex F :=
  match rem with
  | r + 2 =>
      avxAoS_go fScale pIn (i + 2) r
        (fun j =>
          if j = i then scaleVertex fScale (pIn i)
          else if j = i + 1 then scaleVertex fScale (pIn (i + 1))
          else pOut j)
  | _ => pOut

/-- `Transform_AVX_AoS(pIn, pOut, nCount, fScale)` from simd_avx.cpp:
loop `for (i = 0; i + 2 <= nCount; i += 2)`, two vertices per `__m256`.
The source carries a debug-only `assert((nCount % 2) == 0)`. -/
def Transform_AVX_AoS {F : Type} [Mul F] (pIn pOut : ℕ → AoSVertex F)
    (nCount : ℕ) (fScale : F) : ℕ → AoSVertex F :=
  avxAoS_go fScale pIn 0 nCount pOut

/-- The effect of one unaligned load / multiply / unaligned store group on
one axis buffer: `_mm_loadu_ps(pSrc + i)` reads lanes `i .. i+width-1`,
`MULPS` multiplies each by the broadcast scale, `_mm_storeu_ps(pDst + i)`
writes them back (width 4 for SSE2, 8 for AVX). -/
def mulLanes {F : Type} [Mul F] (width : ℕ) (fScale : F) (pSrc pDst : ℕ → F)
    (i : ℕ) : ℕ → F :=
  fun j => if i ≤ j ∧ j < i + width then pSrc j * fScale else pDst j

/-- Loop body of `Transform_SSE2_SoA` (simd_sse2.cpp): one iteration
processes lanes `i .. i+3` of each of the three axis buffers.  The loop
guard is `i + 4 <= nCount`, i.e. pattern `rem = r + 4` with
`rem = nCount - i`. -/
def sse2SoA_go {F : Type} [Mul F] (fScale : F) (pX pY pZ : ℕ → F)
    (i : ℕ) (rem : ℕ) (pXo pYo pZo : ℕ → F) :
    (ℕ → F) × (ℕ → F) × (ℕ → F) :=
  match rem with
  | r + 4 =>
      sse2SoA_go fScale pX pY pZ (i + 4) r
        (mulLanes 4 fScale pX pXo i)
        (mulLanes 4 fScale pY pYo i)
        (mulLanes 4 fScale pZ pZo i)
  | _ => (pXo, pYo, pZo)

/-- `Transform_SSE2_SoA(pIn, pOut, nCount, fScale)` from simd_sse2.cpp:
loop `for (i = 0; i + 4 <= nCount; i += 4)` over the three axis arrays.
The source carries a debug-only `assert((nCount % 4) == 0)`. -/
def Transform_SSE2_SoA {F : Type} [Mul F] (pIn pOut : SoAVertexs F)
    (nCount : ℕ) (fScale : F) : SoAVertexs F :=
  let r := sse2SoA_go fScale pIn.x pIn.y pIn.z 0 nCount pOut.x pOut.y pOut.z
  ⟨r.1, r.2.1, r.2.2⟩

/-- Loop body of `Transform_AVX_SoA` (simd_avx.cpp): one iteration processes
lanes `i .. i+7` of each of the three axis buffers.  The loop guard is
`i + 8 <= nCount`, i.e. pattern `rem = r + 8` with `rem = nCount - i`. -/
def avxSoA_go {F : Type} [Mul F] (fScale : F) (pX pY pZ : ℕ → F)
    (i : ℕ) (rem : ℕ) (pXo pYo pZo : ℕ → F) :
    (ℕ → F) × (ℕ → F) × (ℕ → F) :=
  match rem with
  | r + 8 =>
      avxSoA_go fScale pX pY pZ (i + 8) r
        (mulLanes 8 fScale pX pXo i)
        (mulLanes 8 fScale pY pYo i)
        (mulLanes 8 fScale pZ pZo i)
  | _ => (pXo, pYo, pZo)

/-- `Transform_AVX_SoA(pIn, pOut, nCount, fScale)` from simd_avx.cpp:
loop `for (i = 0; i + 8 <= nCount; i += 8)` over the three axis arrays.
The source carries a debug-only `assert((nCount % 8) == 0)`. -/
def Transform_AVX_SoA {F : Type} [Mul F] (pIn pOut : SoAVertexs F)
    (nCount : ℕ) (fScale : F) : SoAVertexs F :=
  let r := avxSoA_go fScale pIn.x pIn.y pIn.z 0 nCount pOut.x pOut.y pOut.z
  ⟨r.1, r.2.1, r.2.2⟩

/-- Pointwise characterisation of the scalar SoA loop on each axis. -/
theorem scalarSoA_go_apply {F : Type} [Mul F] (fScale : F)
    (pX pY pZ : ℕ → F) (rem : ℕ) :
    ∀ (i : ℕ) (pXo pYo pZo : ℕ → F) (j : ℕ),
      (scalarSoA_go fScale pX pY pZ i rem pXo pYo pZo).1 j =
        (if i ≤ j ∧ j < i + rem then pX j * fScale else pXo j) ∧
      (scalarSoA_go fScale pX pY pZ i rem pXo pYo pZo).2.1 j =
        (if i ≤ j ∧ j < i + rem then pY j * fScale else pYo j) ∧
      (scalarSoA_go fScale pX pY pZ i rem pXo pYo pZo).2.2 j =
        (if i ≤ j ∧ j < i + rem then pZ j * fScale else pZo j) := by
  induction rem with
  | zero =>
      intro i pXo pYo pZo j
      simp only [scalarSoA_go]
      refine ⟨?_, ?_, ?_⟩ <;> rw [if_neg (by omega)]
  | succ r ih =>
      intro i pXo pYo pZo j
      simp only [scalarSoA_go]
      obtain ⟨ih1, ih2, ih3⟩ := ih (i + 1) _ _ _ j
      refine ⟨?_, ?_, ?_⟩
      · rw [ih1]; split_ifs <;> first | rfl | omega | simp_all
      · rw [ih2]; split_ifs <;> first | rfl | omega | simp_all
      · rw [ih3]; split_ifs <;> first | rfl | omega | simp_all

/-- Pointwise characterisation of the SSE2 AoS loop: every reached vertex is
replaced by its fully scaled image (w included). -/
theorem sse2AoS_go_apply {F : Type} [Mul F] (fScale : F)
    (pIn : ℕ → AoSVertex F) (rem : ℕ) :
    ∀ (i : ℕ) (pOut : ℕ → AoSVertex F) (j : ℕ),
      sse2AoS_go fScale pIn i rem pOut j =
        if i ≤ j ∧ j < i + rem then scaleVertex fScale (pIn j) else pOut j := by
  induction rem with
  | zero =>
      intro i pOut j
      simp only [sse2AoS_go]
      rw [if_neg (by omega)]
  | succ r ih =>
      intro i pOut j
      simp only [sse2AoS_go]
      rw [ih]
      split_ifs <;> first | rfl | omega | simp_all

/-- Pointwise characterisation of the AVX AoS loop: it reaches exactly the
first `2 * (rem / 2)` vertices after `i`, replacing each by its fully scaled
image (w included). -/
theorem avxAoS_go_apply {F : Type} [Mul F] (fScale : F)
    (pIn : ℕ → AoSVertex F) (rem : ℕ) :
    ∀ (i : ℕ) (pOut : ℕ → AoSVertex F) (j : ℕ),
      avxAoS_go fScale pIn i rem pOut j =
        if i ≤ j ∧ j < i + 2 * (rem / 2) then scaleVertex fScale (pIn j)
        else pOut j := by
  induction rem using Nat.strong_induction_on with
  | _ rem ih =>
      intro i pOut j
      rcases rem with _ | _ | r
      · simp only [avxAoS_go]
        rw [if_neg (by omega)]
      · simp only [avxAoS_go]
        rw [if_neg (by omega)]
      · simp only [avxAoS_go]
        rw [ih r (by omega)]
        split_ifs <;> first | rfl | omega | simp_all

/-- Pointwise characterisation of the SSE2 SoA loop on each axis: it reaches
exactly the first `4 * (rem / 4)` lanes after `i`. -/
theorem sse2SoA_go_apply {F : Type} [Mul F] (fScale : F)
    (pX pY pZ : ℕ → F) (rem : ℕ) :
    ∀ (i : ℕ) (pXo pYo pZo : ℕ → F) (j : ℕ),
      (sse2SoA_go fScale pX pY pZ i rem pXo pYo pZo).1 j =
        (if i ≤ j ∧ j < i + 4 * (rem / 4) then pX j * fScale else pXo j) ∧
      (sse2SoA_go fScale pX pY pZ i rem pXo pYo pZo).2.1 j =
        (if i ≤ j ∧ j < i + 4 * (rem / 4) then pY j * fScale else pYo j) ∧
      (sse2SoA_go fScale pX pY pZ i rem pXo pYo pZo).2.2 j =
        (if i ≤ j ∧ j < i + 4 * (rem / 4) then pZ j * fScale else pZo j) := by
  induction rem using Nat.strong_induction_on with
  | _ rem ih =>
      intro i pXo pYo pZo j
      rcases rem with _ | _ | _ | _ | r
      · simp only [sse2SoA_go]
        refine ⟨?_, ?_, ?_⟩ <;> rw [if_neg (by omega)]
      · simp only [sse2SoA_go]
        refine ⟨?_, ?_, ?_⟩ <;> rw [if_neg (by omega)]
      · simp only [sse2SoA_go]
        refine ⟨?_, ?_, ?_⟩ <;> rw [if_neg (by omega)]
      · simp only [sse2SoA_go]
        refine ⟨?_, ?_, ?_⟩ <;> rw [if_neg (by omega)]
      · simp only [sse2SoA_go]
        obtain ⟨ih1, ih2, ih3⟩ :=
          ih r (by omega) (i + 4) (mulLanes 4 fScale pX pXo i)
            (mulLanes 4 fScale pY pYo i) (mulLanes 4 fScale pZ pZo i) j
        refine ⟨?_, ?_, ?_⟩
        · rw [ih1]; simp only [mulLanes]
          split_ifs <;> first | rfl | omega
        · rw [ih2]; simp only [mulLanes]
          split_ifs <;> first | rfl | omega
        · rw [ih3]; simp only [mulLanes]
          split_ifs <;> first | rfl | omega

/-- Pointwise characterisation of the AVX SoA loop on each axis: it reaches
exactly the first `8 * (rem / 8)` lanes after `i`. -/
theorem avxSoA_go_apply {F : Type} [Mul F] (fScale : F)
    (pX pY pZ : ℕ → F) (rem : ℕ) :
    ∀ (i : ℕ) (pXo pYo pZo : ℕ → F) (j : ℕ),
      (avxSoA_go fScale pX pY pZ i rem pXo pYo pZo).1 j =
        (if i ≤ j ∧ j < i + 8 * (rem / 8) then pX j * fScale else pXo j) ∧
      (avxSoA_go fScale pX pY pZ i rem pXo pYo pZo).2.1 j =
        (if i ≤ j ∧ j < i + 8 * (rem / 8) then pY j * fScale else pYo j) ∧
      (avxSoA_go fScale pX pY pZ i rem pXo pYo pZo).2.2 j =
        (if i ≤ j ∧ j < i + 8 * (rem / 8) then pZ j * fScale else pZo j) := by
  induction rem using Nat.strong_induction_on with
  | _ rem ih =>
      intro i pXo pYo pZo j
      rcases rem with _ | _ | _ | _ | _ | _ | _ | _ | r
      iterate 8
        first
        | (simp only [avxSoA_go]
           refine ⟨?_, ?_, ?_⟩ <;> rw [if_neg (by omega)])
      · simp only [avxSoA_go]
        obtain ⟨ih1, ih2, ih3⟩ :=
          ih r (by omega) (i + 8) (mulLanes 8 fScale pX pXo i)
            (mulLanes 8 fScale pY pYo i) (mulLanes 8 fScale pZ pZo i) j
        refine ⟨?_, ?_, ?_⟩
        · rw [ih1]; simp only [mulLanes]
          split_ifs <;> first | rfl | omega
        · rw [ih2]; simp only [mulLanes]
          split_ifs <;> first | rfl | omega
        · rw [ih3]; simp only [mulLanes]
          split_ifs <;> first | rfl | omega

/-- `struct CpuCaps { bool sse2; bool avx; }` from main.cpp. -/
structure CpuCaps where
  sse2 : Bool
  avx : Bool
deriving DecidableEq

/-- `DetectCpuCaps()` from main.cpp, with the result of `__cpuid(info, 1)`
made an explicit argument (`info` is the filled `int info[4]`: EAX, EBX,
ECX, EDX in that order).  The source computes
`caps.sse2 = (info[3] & (1 << 26)) != 0` and
`caps.avx  = (info[2] & (1 << 28)) != 0`. -/
def DetectCpuCaps (info : Fin 4 → ℕ) : CpuCaps :=
  { sse2 := (info 3 &&& (1 <<< 26)) != 0
    avx := (info 2 &&& (1 <<< 28)) != 0 }

/-- Identifies which of the three implementation tiers a selected kernel
function belongs to. -/
inductive SimdTier where
  | scalar
  | sse2
  | avx
deriving DecidableEq

/-- The pair of function pointers `hSelectedAoS` / `hSelectedSoa` chosen in
`main()`, identified by tier. -/
structure KernelSelection where
  aos : SimdTier
  soa : SimdTier
deriving DecidableEq

/-- The selection chain in `main()` (main.cpp):
`if (hCPUInfo.avx) { ... AVX pair ... } else if (hCPUInfo.sse2)
{ ... SSE2 pair ... } else { ... Scalar pair ... }`. -/
def selectKernels (caps : CpuCaps) : KernelSelection :=
  if caps.avx then ⟨SimdTier.avx, SimdTier.avx⟩
  else if caps.sse2 then ⟨SimdTier.sse2, SimdTier.sse2⟩
  else ⟨SimdTier.scalar, SimdTier.scalar⟩

/-- The AoS kernel function a tier tag stands for (the value assigned to
`hSelectedAoS` in `main()`). -/
def tierAoSKernel {F : Type} [Mul F] (t : SimdTier) :
    (ℕ → AoSVertex F) → (ℕ → AoSVertex F) → ℕ → F → (ℕ → AoSVertex F) :=
  match t with
  | SimdTier.scalar => Transform_Scalar_AoS
  | SimdTier.sse2 => Transform_SSE2_AoS
  | SimdTier.avx => Transform_AVX_AoS

/-- The SoA kernel function a tier tag stands for (the value assigned to
`hSelectedSoa` in `main()`). -/
def tierSoAKernel {F : Type} [Mul F] (t : SimdTier) :
    SoAVertexs F → SoAVertexs F → ℕ → F → SoAVertexs F :=
  match t with
  | SimdTier.scalar => Transform_Scalar_SoA
  | SimdTier.sse2 => Transform_SSE2_SoA
  | SimdTier.avx => Transform_AVX_SoA

/-- The timed loop of `BenchmarkQPC`:
`for (int i = 0; i < nIterations; ++i) Function(pIn, pOut, nCount, fScale);`
One invocation is a state transformer on the mutable environment `σ`
(the output buffer; the arguments are the same on every call, so they are
folded into `Function`). -/
def benchIter {σ : Type} (Function : σ → σ) (s : σ) : ℕ → σ
  | 0 => s
  | n + 1 => benchIter Function (Function s) n

/-- `BenchmarkQPC(Function, pIn, pOut, nCount, fScale, nIterations)` from
main.cpp.  The performance counter is modelled by `clock`, giving the
counter reading as a function of how many kernel invocations have happened
so far: `QueryPerformanceCounter(&liStart)` runs right after the single
warmup invocation (1 invocation so far), and `QueryPerformanceCounter
(&liEnd)` right after the timed loop (`1 + nIterations` invocations).
Returns the final buffer state and `dElapsedMilliseconds =
(liEnd - liStart) * 1000.0 / liFrequency`. -/
def BenchmarkQPC {σ : Type} (Function : σ → σ) (s : σ) (nIterations : ℕ)
    (liFrequency : ℚ) (clock : ℕ → ℚ) : σ × ℚ :=
  let warmed := Function s
  let liStart := clock 1
  let finalState := benchIter Function warmed nIterations
  let liEnd := clock (1 + nIterations)
  let llElapsedCounts := liEnd - liStart
  let dElapsedMilliseconds := llElapsedCounts * 1000 / liFrequency
  (finalState, dElapsedMilliseconds)

/-- The timed loop performs exactly `n` invocations: it is `n`-fold
iteration of the kernel. -/
theorem benchIter_eq_iterate {σ : Type} (Function : σ → σ) (s : σ) (n : ℕ) :
    benchIter Function s n = Function^[n] s := by
  induction n generalizing s with
  | zero => rfl
  | succ n ih =>
      rw [benchIter, ih, Function.iterate_succ_apply]

/-- Concrete AoS input buffer used by the closed witness theorems. -/
def exAoS : ℕ → AoSVertex ℕ := fun j => ⟨j + 1, 2 * j + 2, 3 * j + 3, 5 * j + 7⟩

/-- Concrete AoS output buffer (pre-call contents) used by the witnesses. -/
def exAoSOut : ℕ → AoSVertex ℕ := fun _ => ⟨0, 0, 0, 9⟩

/-- Concrete SoA input buffer used by the closed witness theorems. -/
def exSoA : SoAVertexs ℕ := ⟨fun j => j + 1, fun j => j + 2, fun j => j + 3⟩

/-- Concrete SoA output buffer (pre-call contents) used by the witnesses. -/
def exSoAOut : SoAVertexs ℕ := ⟨fun _ => 0, fun _ => 0, fun _ => 0⟩

/-- C1: for every kernel (Scalar/SSE2/AVX × AoS/SoA), under its
count-divisibility precondition, every element index `i < nCount` of the
output holds `input[i].axis * scale` on each of the x, y, z axes.
(Input and output are distinct buffers by construction, modelling the
disjointness precondition; the AoS alignment requirements concern machine
addresses and have no content in this memory model.) -/
theorem claim_C1_kernel_postcondition {F : Type} [Mul F]
    (pInA pOutA : ℕ → AoSVertex F) (pInS pOutS : SoAVertexs F)
    (nCount : ℕ) (fScale : F) :
    (∀ i < nCount,
      (Transform_Scalar_AoS pInA pOutA nCount fScale i).x = (pInA i).x * fScale ∧
      (Transform_Scalar_AoS pInA pOutA nCount fScale i).y = (pInA i).y * fScale ∧
      (Transform_Scalar_AoS pInA pOutA nCount fScale i).z = (pInA i).z * fScale) ∧
    (∀ i < nCount,
      (Transform_SSE2_AoS pInA pOutA nCount fScale i).x = (pInA i).x * fScale ∧
      (Transform_SSE2_AoS pInA pOutA nCount fScale i).y = (pInA i).y * fScale ∧
      (Transform_SSE2_AoS pInA pOutA nCount fScale i).z = (pInA i).z * fScale) ∧
    (2 ∣ nCount → ∀ i < nCount,
      (Transform_AVX_AoS pInA pOutA nCount fScale i).x = (pInA i).x * fScale ∧
      (Transform_AVX_AoS pInA pOutA nCount fScale i).y = (pInA i).y * fScale ∧
      (Transform_AVX_AoS pInA pOutA nCount fScale i).z = (pInA i).z * fScale) ∧
    (∀ i < nCount,
      (Transform_Scalar_SoA pInS pOutS nCount fScale).x i = pInS.x i * fScale ∧
      (Transform_Scalar_SoA pInS pOutS nCount fScale).y i = pInS.y i * fScale ∧
      (Transform_Scalar_SoA pInS pOutS nCount fScale).z i = pInS.z i * fScale) ∧
    (4 ∣ nCount → ∀ i < nCount,
      (Transform_SSE2_SoA pInS pOutS nCount fScale).x i = pInS.x i * fScale ∧
      (Transform_SSE2_SoA pInS pOutS nCount fScale).y i = pInS.y i * fScale ∧
      (Transform_SSE2_SoA pInS pOutS nCount fScale).z i = pInS.z i * fScale) ∧
    (8 ∣ nCount → ∀ i < nCount,
      (Transform_AVX_SoA pInS pOutS nCount fScale).x i = pInS.x i * fScale ∧
      (Transform_AVX_SoA pInS pOutS nCount fScale).y i = pInS.y i * fScale ∧
      (Transform_AVX_SoA pInS pOutS nCount fScale).z i = pInS.z i * fScale) := by
  refine ⟨?_, ?_, ?_, ?_, ?_, ?_⟩
  · intro i hi
    simp only [Transform_Scalar_AoS]
    rw [scalarAoS_go_apply, if_pos (by omega)]
    exact ⟨rfl, rfl, rfl⟩
  · intro i hi
    simp only [Transform_SSE2_AoS]
    rw [sse2AoS_go_apply, if_pos (by omega)]
    exact ⟨rfl, rfl, rfl⟩
  · intro h2 i hi
    simp only [Transform_AVX_AoS]
    rw [avxAoS_go_apply, if_pos (by omega)]
    exact ⟨rfl, rfl, rfl⟩
  · intro i hi
    obtain ⟨h1, h2, h3⟩ :=
      scalarSoA_go_apply fScale pInS.x pInS.y pInS.z nCount 0
        pOutS.x pOutS.y pOutS.z i
    simp only [Transform_Scalar_SoA]
    refine ⟨?_, ?_, ?_⟩
    · rw [h1, if_pos (by omega)]
    · rw [h2, if_pos (by omega)]
    · rw [h3, if_pos (by omega)]
  · intro h4 i hi
    obtain ⟨h1, h2, h3⟩ :=
      sse2SoA_go_apply fScale pInS.x pInS.y pInS.z nCount 0
        pOutS.x pOutS.y pOutS.z i
    simp only [Transform_SSE2_SoA]
    refine ⟨?_, ?_, ?_⟩
    · rw [h1, if_pos (by omega)]
    · rw [h2, if_pos (by omega)]
    · rw [h3, if_pos (by omega)]
  · intro h8 i hi
    obtain ⟨h1, h2, h3⟩ :=
      avxSoA_go_apply fScale pInS.x pInS.y pInS.z nCount 0
        pOutS.x pOutS.y pOutS.z i
    simp only [Transform_AVX_SoA]
    refine ⟨?_, ?_, ?_⟩
    · rw [h1, if_pos (by omega)]
    · rw [h2, if_pos (by omega)]
    · rw [h3, if_pos (by omega)]

/-- Closed witness for C1 at count 8, index 3, scale 10. -/
theorem claim_C1_kernel_postcondition_witness :
    ((3:ℕ) < 8 ∧ (2:ℕ) ∣ 8 ∧ (4:ℕ) ∣ 8 ∧ (8:ℕ) ∣ 8) ∧
    (Transform_Scalar_AoS exAoS exAoSOut 8 10 3).x = (exAoS 3).x * 10 ∧
    (Transform_SSE2_AoS exAoS exAoSOut 8 10 3).x = (exAoS 3).x * 10 ∧
    (Transform_AVX_AoS exAoS exAoSOut 8 10 3).x = (exAoS 3).x * 10 ∧
    (Transform_Scalar_SoA exSoA exSoAOut 8 10).x 3 = exSoA.x 3 * 10 ∧
    (Transform_SSE2_SoA exSoA exSoAOut 8 10).x 3 = exSoA.x 3 * 10 ∧
    (Transform_AVX_SoA exSoA exSoAOut 8 10).x 3 = exSoA.x 3 * 10 := by
  have h := claim_C1_kernel_postcondition exAoS exAoSOut exSoA exSoAOut 8 10
  exact ⟨⟨by decide, by decide, by decide, by decide⟩,
    (h.1 3 (by decide)).1,
    (h.2.1 3 (by decide)).1,
    (h.2.2.1 (by decide) 3 (by decide)).1,
    (h.2.2.2.1 3 (by decide)).1,
    (h.2.2.2.2.1 (by decide) 3 (by decide)).1,
    (h.2.2.2.2.2 (by decide) 3 (by decide)).1⟩

/-- C2: whenever the preconditions of all three tiers hold (count even for
the AoS family because of AVX/AoS; count a multiple of 8 for the SoA
family), the Scalar, SSE2 and AVX kernels of the same layout produce
identical values on the x, y, z channels at every index.  The equality is
in the abstract float type under the one shared multiplication, i.e. every
kernel performs the very same multiply on the same operands, which is why
the concrete IEEE binary32 outputs agree bit for bit. -/
theorem claim_C2_tier_equivalence {F : Type} [Mul F]
    (pInA pOutA : ℕ → AoSVertex F) (pInS pOutS : SoAVertexs F)
    (nCount : ℕ) (fScale : F) (h2 : 2 ∣ nCount) (h8 : 8 ∣ nCount) :
    (∀ j,
      (Transform_Scalar_AoS pInA pOutA nCount fScale j).x =
        (Transform_SSE2_AoS pInA pOutA nCount fScale j).x ∧
      (Transform_Scalar_AoS pInA pOutA nCount fScale j).y =
        (Transform_SSE2_AoS pInA pOutA nCount fScale j).y ∧
      (Transform_Scalar_AoS pInA pOutA nCount fScale j).z =
        (Transform_SSE2_AoS pInA pOutA nCount fScale j).z ∧
      (Transform_Scalar_AoS pInA pOutA nCount fScale j).x =
        (Transform_AVX_AoS pInA pOutA nCount fScale j).x ∧
      (Transform_Scalar_AoS pInA pOutA nCount fScale j).y =
        (Transform_AVX_AoS pInA pOutA nCount fScale j).y ∧
      (Transform_Scalar_AoS pInA pOutA nCount fScale j).z =
        (Transform_AVX_AoS pInA pOutA nCount fScale j).z) ∧
    (∀ j,
      (Transform_Scalar_SoA pInS pOutS nCount fScale).x j =
        (Transform_SSE2_SoA pInS pOutS nCount fScale).x j ∧
      (Transform_Scalar_SoA pInS pOutS nCount fScale).y j =
        (Transform_SSE2_SoA pInS pOutS nCount fScale).y j ∧
      (Transform_Scalar_SoA pInS pOutS nCount fScale).z j =
        (Transform_SSE2_SoA pInS pOutS nCount fScale).z j ∧
      (Transform_Scalar_SoA pInS pOutS nCount fScale).x j =
        (Transform_AVX_SoA pInS pOutS nCount fScale).x j ∧
      (Transform_Scalar_SoA pInS pOutS nCount fScale).y j =
        (Transform_AVX_SoA pInS pOutS nCount fScale).y j ∧
      (Transform_Scalar_SoA pInS pOutS nCount fScale).z j =
        (Transform_AVX_SoA pInS pOutS nCount fScale).z j) := by
  constructor
  · intro j
    simp only [Transform_Scalar_AoS, Transform_SSE2_AoS, Transform_AVX_AoS]
    rw [scalarAoS_go_apply, sse2AoS_go_apply, avxAoS_go_apply]
    split_ifs <;>
      first
      | exact ⟨rfl, rfl, rfl, rfl, rfl, rfl⟩
      | omega
  · intro j
    obtain ⟨hs1, hs2, hs3⟩ :=
      scalarSoA_go_apply fScale pInS.x pInS.y pInS.z nCount 0
        pOutS.x pOutS.y pOutS.z j
    obtain ⟨he1, he2, he3⟩ :=
      sse2SoA_go_apply fScale pInS.x pInS.y pInS.z nCount 0
        pOutS.x pOutS.y pOutS.z j
    obtain ⟨ha1, ha2, ha3⟩ :=
      avxSoA_go_apply fScale pInS.x pInS.y pInS.z nCount 0
        pOutS.x pOutS.y pOutS.z j
    simp only [Transform_Scalar_SoA, Transform_SSE2_SoA, Transform_AVX_SoA]
    rw [hs1, hs2, hs3, he1, he2, he3, ha1, ha2, ha3]
    split_ifs <;>
      first
      | exact ⟨rfl, rfl, rfl, rfl, rfl, rfl⟩
      | omega

/-- Closed witness for C2 at count 8, scale 10, index 5. -/
theorem claim_C2_tier_equivalence_witness :
    ((2:ℕ) ∣ 8 ∧ (8:ℕ) ∣ 8) ∧
    (Transform_Scalar_AoS exAoS exAoSOut 8 10 5).x =
      (Transform_SSE2_AoS exAoS exAoSOut 8 10 5).x ∧
    (Transform_Scalar_AoS exAoS exAoSOut 8 10 5).z =
      (Transform_AVX_AoS exAoS exAoSOut 8 10 5).z ∧
    (Transform_Scalar_SoA exSoA exSoAOut 8 10).x 5 =
      (Transform_SSE2_SoA exSoA exSoAOut 8 10).x 5 ∧
    (Transform_Scalar_SoA exSoA exSoAOut 8 10).z 5 =
      (Transform_AVX_SoA exSoA exSoAOut 8 10).z 5 := by
  have h := claim_C2_tier_equivalence exAoS exAoSOut exSoA exSoAOut 8 10
    (by decide) (by decide)
  exact ⟨⟨by decide, by decide⟩, (h.1 5).1, (h.1 5).2.2.2.2.2,
    (h.2 5).1, (h.2 5).2.2.2.2.2⟩

/-- C3: the dispatcher prefers AVX whenever `avx` is set (whatever `sse2`
says), else SSE2 when `sse2` is set, else Scalar; the AoS and SoA slots of
the selection always carry the same tier.  `selectKernels` is a total
function on `CpuCaps`, so every capability record yields a selection. -/
theorem claim_C3_dispatch_order (caps : CpuCaps) :
    (caps.avx = true →
      selectKernels caps = ⟨SimdTier.avx, SimdTier.avx⟩) ∧
    (caps.avx = false → caps.sse2 = true →
      selectKernels caps = ⟨SimdTier.sse2, SimdTier.sse2⟩) ∧
    (caps.avx = false → caps.sse2 = false →
      selectKernels caps = ⟨SimdTier.scalar, SimdTier.scalar⟩) ∧
    (selectKernels caps).aos = (selectKernels caps).soa := by
  obtain ⟨s, a⟩ := caps
  cases s <;> cases a <;> decide

/-- Closed witness for C3 on the record with both features set, exercising
the AVX-beats-SSE2 branch. -/
theorem claim_C3_dispatch_order_witness :
    (CpuCaps.mk true true).avx = true ∧
    selectKernels ⟨true, true⟩ = ⟨SimdTier.avx, SimdTier.avx⟩ :=
  ⟨rfl, (claim_C3_dispatch_order ⟨true, true⟩).1 rfl⟩

/-- C4: with an arbitrary count `n`, SSE2/SoA transforms exactly the first
`4 * (n / 4)` lanes of each axis and leaves every later lane of the output
unchanged; AVX/SoA does the same with `8 * (n / 8)`; and AVX/AoS on an odd
count leaves the final output vertex exactly as it was. -/
theorem claim_C4_remainder_frame {F : Type} [Mul F]
    (pInA pOutA : ℕ → AoSVertex F) (pInS pOutS : SoAVertexs F)
    (n : ℕ) (fScale : F) :
    (∀ j < 4 * (n / 4),
      (Transform_SSE2_SoA pInS pOutS n fScale).x j = pInS.x j * fScale ∧
      (Transform_SSE2_SoA pInS pOutS n fScale).y j = pInS.y j * fScale ∧
      (Transform_SSE2_SoA pInS pOutS n fScale).z j = pInS.z j * fScale) ∧
    (∀ j, 4 * (n / 4) ≤ j →
      (Transform_SSE2_SoA pInS pOutS n fScale).x j = pOutS.x j ∧
      (Transform_SSE2_SoA pInS pOutS n fScale).y j = pOutS.y j ∧
      (Transform_SSE2_SoA pInS pOutS n fScale).z j = pOutS.z j) ∧
    (∀ j < 8 * (n / 8),
      (Transform_AVX_SoA pInS pOutS n fScale).x j = pInS.x j * fScale ∧
      (Transform_AVX_SoA pInS pOutS n fScale).y j = pInS.y j * fScale ∧
      (Transform_AVX_SoA pInS pOutS n fScale).z j = pInS.z j * fScale) ∧
    (∀ j, 8 * (n / 8) ≤ j →
      (Transform_AVX_SoA pInS pOutS n fScale).x j = pOutS.x j ∧
      (Transform_AVX_SoA pInS pOutS n fScale).y j = pOutS.y j ∧
      (Transform_AVX_SoA pInS pOutS n fScale).z j = pOutS.z j) ∧
    (n % 2 = 1 →
      Transform_AVX_AoS pInA pOutA n fScale (n - 1) = pOutA (n - 1)) := by
  refine ⟨?_, ?_, ?_, ?_, ?_⟩
  · intro j hj
    obtain ⟨h1, h2, h3⟩ :=
      sse2SoA_go_apply fScale pInS.x pInS.y pInS.z n 0
        pOutS.x pOutS.y pOutS.z j
    simp only [Transform_SSE2_SoA]
    exact ⟨by rw [h1, if_pos (by omega)], by rw [h2, if_pos (by omega)],
      by rw [h3, if_pos (by omega)]⟩
  · intro j hj
    obtain ⟨h1, h2, h3⟩ :=
      sse2SoA_go_apply fScale pInS.x pInS.y pInS.z n 0
        pOutS.x pOutS.y pOutS.z j
    simp only [Transform_SSE2_SoA]
    exact ⟨by rw [h1, if_neg (by omega)], by rw [h2, if_neg (by omega)],
      by rw [h3, if_neg (by omega)]⟩
  · intro j hj
    obtain ⟨h1, h2, h3⟩ :=
      avxSoA_go_apply fScale pInS.x pInS.y pInS.z n 0
        pOutS.x pOutS.y pOutS.z j
    simp only [Transform_AVX_SoA]
    exact ⟨by rw [h1, if_pos (by omega)], by rw [h2, if_pos (by omega)],
      by rw [h3, if_pos (by omega)]⟩
  · intro j hj
    obtain ⟨h1, h2, h3⟩ :=
      avxSoA_go_apply fScale pInS.x pInS.y pInS.z n 0
        pOutS.x pOutS.y pOutS.z j
    simp only [Transform_AVX_SoA]
    exact ⟨by rw [h1, if_neg (by omega)], by rw [h2, if_neg (by omega)],
      by rw [h3, if_neg (by omega)]⟩
  · intro hodd
    simp only [Transform_AVX_AoS]
    rw [avxAoS_go_apply, if_neg (by omega)]

/-- Closed witness for C4 at count 7 (so SSE2/SoA processes lanes 0..3 and
leaves lane 4; AVX/SoA processes nothing; AVX/AoS leaves vertex 6). -/
theorem claim_C4_remainder_frame_witness :
    ((3:ℕ) < 4 * (7 / 4) ∧ 4 * (7 / 4) ≤ (4:ℕ) ∧ 8 * (7 / 8) ≤ (0:ℕ) ∧
      (7:ℕ) % 2 = 1) ∧
    (Transform_SSE2_SoA exSoA exSoAOut 7 10).x 3 = exSoA.x 3 * 10 ∧
    (Transform_SSE2_SoA exSoA exSoAOut 7 10).x 4 = exSoAOut.x 4 ∧
    (Transform_AVX_SoA exSoA exSoAOut 7 10).x 0 = exSoAOut.x 0 ∧
    Transform_AVX_AoS exAoS exAoSOut 7 10 6 = exAoSOut 6 := by
  have h := claim_C4_remainder_frame exAoS exAoSOut exSoA exSoAOut 7 10
  exact ⟨⟨by decide, by decide, by decide, by decide⟩,
    (h.1 3 (by decide)).1,
    (h.2.1 4 (by decide)).1,
    (h.2.2.2.1 0 (by decide)).1,
    h.2.2.2.2 (by decide)⟩

/-- C5 as stated is false: the SSE2/AoS kernel loads, scales and stores the
whole 16-byte vertex, so it overwrites `w`.  At count 1, scale 10, the
output vertex 0 has `w = 7 * 10 = 70`, not the prior `9`. -/
theorem claim_C5_counterexample :
    ¬ (Transform_SSE2_AoS exAoS exAoSOut 1 10 0).w = (exAoSOut 0).w := by
  decide

/-- C5 amended: of the three AoS kernels only Scalar/AoS never writes `w` —
its three per-field stores touch x, y, z only, so for every input, count
and scale the `w` of every output element is exactly what it was before the
call.  (SSE2/AoS and AVX/AoS instead overwrite `w` of every vertex they
process with `input.w * scale`.) -/
theorem claim_C5_amended_scalar_w_frame {F : Type} [Mul F]
    (pIn pOut : ℕ → AoSVertex F) (nCount : ℕ) (fScale : F) (j : ℕ) :
    (Transform_Scalar_AoS pIn pOut nCount fScale j).w = (pOut j).w := by
  simp only [Transform_Scalar_AoS]
  rw [scalarAoS_go_apply]
  split_ifs <;> rfl

/-- C6: for every iteration count `n`, the harness invokes the kernel
exactly `n + 1` times in total (the single untimed warmup followed by the
`n` timed iterations), and the elapsed value is computed from the counter
readings taken after the warmup and after the timed loop as
`(end - start) * 1000 / frequency`. -/
theorem claim_C6_benchmark_protocol {σ : Type} (Function : σ → σ) (s : σ)
    (n : ℕ) (liFrequency : ℚ) (clock : ℕ → ℚ) :
    (BenchmarkQPC Function s n liFrequency clock).1 = Function^[n + 1] s ∧
    (BenchmarkQPC Function s n liFrequency clock).2 =
      (clock (1 + n) - clock 1) * 1000 / liFrequency := by
  constructor
  · simp only [BenchmarkQPC]
    rw [benchIter_eq_iterate, ← Function.iterate_succ_apply]
  · rfl

/-- C7: under each kernel's divisibility precondition, scaling by a factor
that is a right identity for the float multiply (the abstract rendering of
`fScale = 1.0f`) reproduces the input on x, y, z at every index below the
count. -/
theorem claim_C7_scale_one_identity {F : Type} [Mul F]
    (pInA pOutA : ℕ → AoSVertex F) (pInS pOutS : SoAVertexs F)
    (nCount : ℕ) (fScale : F) (hone : ∀ a : F, a * fScale = a) :
    (∀ i < nCount,
      (Transform_Scalar_AoS pInA pOutA nCount fScale i).x = (pInA i).x ∧
      (Transform_Scalar_AoS pInA pOutA nCount fScale i).y = (pInA i).y ∧
      (Transform_Scalar_AoS pInA pOutA nCount fScale i).z = (pInA i).z) ∧
    (∀ i < nCount,
      (Transform_SSE2_AoS pInA pOutA nCount fScale i).x = (pInA i).x ∧
      (Transform_SSE2_AoS pInA pOutA nCount fScale i).y = (pInA i).y ∧
      (Transform_SSE2_AoS pInA pOutA nCount fScale i).z = (pInA i).z) ∧
    (2 ∣ nCount → ∀ i < nCount,
      (Transform_AVX_AoS pInA pOutA nCount fScale i).x = (pInA i).x ∧
      (Transform_AVX_AoS pInA pOutA nCount fScale i).y = (pInA i).y ∧
      (Transform_AVX_AoS pInA pOutA nCount fScale i).z = (pInA i).z) ∧
    (∀ i < nCount,
      (Transform_Scalar_SoA pInS pOutS nCount fScale).x i = pInS.x i ∧
      (Transform_Scalar_SoA pInS pOutS nCount fScale).y i = pInS.y i ∧
      (Transform_Scalar_SoA pInS pOutS nCount fScale).z i = pInS.z i) ∧
    (4 ∣ nCount → ∀ i < nCount,
      (Transform_SSE2_SoA pInS pOutS nCount fScale).x i = pInS.x i ∧
      (Transform_SSE2_SoA pInS pOutS nCount fScale).y i = pInS.y i ∧
      (Transform_SSE2_SoA pInS pOutS nCount fScale).z i = pInS.z i) ∧
    (8 ∣ nCount → ∀ i < nCount,
      (Transform_AVX_SoA pInS pOutS nCount fScale).x i = pInS.x i ∧
      (Transform_AVX_SoA pInS pOutS nCount fScale).y i = pInS.y i ∧
      (Transform_AVX_SoA pInS pOutS nCount fScale).z i = pInS.z i) := by
  refine ⟨?_, ?_, ?_, ?_, ?_, ?_⟩
  · intro i hi
    simp only [Transform_Scalar_AoS]
    rw [scalarAoS_go_apply, if_pos (by omega)]
    exact ⟨hone _, hone _, hone _⟩
  · intro i hi
    simp only [Transform_SSE2_AoS]
    rw [sse2AoS_go_apply, if_pos (by omega)]
    exact ⟨hone _, hone _, hone _⟩
  · intro h2 i hi
    simp only [Transform_AVX_AoS]
    rw [avxAoS_go_apply, if_pos (by omega)]
    exact ⟨hone _, hone _, hone _⟩
  · intro i hi
    obtain ⟨h1, h2, h3⟩ :=
      scalarSoA_go_apply fScale pInS.x pInS.y pInS.z nCount 0
        pOutS.x pOutS.y pOutS.z i
    simp only [Transform_Scalar_SoA]
    refine ⟨?_, ?_, ?_⟩
    · rw [h1, if_pos (by omega)]; exact hone _
    · rw [h2, if_pos (by omega)]; exact hone _
    · rw [h3, if_pos (by omega)]; exact hone _
  · intro h4 i hi
    obtain ⟨h1, h2, h3⟩ :=
      sse2SoA_go_apply fScale pInS.x pInS.y pInS.z nCount 0
        pOutS.x pOutS.y pOutS.z i
    simp only [Transform_SSE2_SoA]
    refine ⟨?_, ?_, ?_⟩
    · rw [h1, if_pos (by omega)]; exact hone _
    · rw [h2, if_pos (by omega)]; exact hone _
    · rw [h3, if_pos (by omega)]; exact hone _
  · intro h8 i hi
    obtain ⟨h1, h2, h3⟩ :=
      avxSoA_go_apply fScale pInS.x pInS.y pInS.z nCount 0
        pOutS.x pOutS.y pOutS.z i
    simp only [Transform_AVX_SoA]
    refine ⟨?_, ?_, ?_⟩
    · rw [h1, if_pos (by omega)]; exact hone _
    · rw [h2, if_pos (by omega)]; exact hone _
    · rw [h3, if_pos (by omega)]; exact hone _

/-- Closed witness for C7 over `ℕ` with the multiplicative unit as scale,
count 8, index 2. -/
theorem claim_C7_scale_one_identity_witness :
    ((∀ a : ℕ, a * 1 = a) ∧ (2:ℕ) < 8 ∧ (2:ℕ) ∣ 8 ∧ (4:ℕ) ∣ 8 ∧
      (8:ℕ) ∣ 8) ∧
    (Transform_Scalar_AoS exAoS exAoSOut 8 1 2).x = (exAoS 2).x ∧
    (Transform_AVX_AoS exAoS exAoSOut 8 1 2).y = (exAoS 2).y ∧
    (Transform_SSE2_SoA exSoA exSoAOut 8 1).x 2 = exSoA.x 2 ∧
    (Transform_AVX_SoA exSoA exSoAOut 8 1).z 2 = exSoA.z 2 := by
  have h := claim_C7_scale_one_identity exAoS exAoSOut exSoA exSoAOut 8 1
    (fun a => Nat.mul_one a)
  exact ⟨⟨fun a => Nat.mul_one a, by decide, by decide, by decide, by decide⟩,
    (h.1 2 (by decide)).1,
    (h.2.2.1 (by decide) 2 (by decide)).2.1,
    (h.2.2.2.2.1 (by decide) 2 (by decide)).1,
    (h.2.2.2.2.2 (by decide) 2 (by decide)).2.2⟩

/-- C8: the detector reports SSE2 exactly when bit 26 of EDX (`info[3]`)
is set and AVX exactly when bit 28 of ECX (`info[2]`) is set. -/
theorem claim_C8_cpuid_bits (info : Fin 4 → ℕ) :
    ((DetectCpuCaps info).sse2 = true ↔ Nat.testBit (info 3) 26) ∧
    ((DetectCpuCaps info).avx = true ↔ Nat.testBit (info 2) 28) := by
  have hshl : ∀ k : ℕ, (1 : ℕ) <<< k = 2 ^ k := by
    intro k
    rw [Nat.shiftLeft_eq, one_mul]
  constructor
  · simp only [DetectCpuCaps, bne_iff_ne, ne_eq, hshl 26,
      Nat.and_two_pow]
    rcases h : Nat.testBit (info 3) 26 <;> simp [h]
  · simp only [DetectCpuCaps, bne_iff_ne, ne_eq, hshl 28,
      Nat.and_two_pow]
    rcases h : Nat.testBit (info 2) 28 <;> simp [h]

/-- C9: even with the divisibility preconditions violated, every SIMD
kernel touches only indices below the count: the output it produces depends
only on input values at indices `< nCount` (two inputs agreeing there give
identical outputs), and every output element at an index `≥ nCount` is left
exactly as it was.  This is the observable content of each loop guard
`i + laneWidth <= nCount`. -/
theorem claim_C9_access_bounded {F : Type} [Mul F] (n : ℕ) (fScale : F) :
    (∀ (pIn1 pIn2 pOut : ℕ → AoSVertex F),
      (∀ j < n, pIn1 j = pIn2 j) →
      ∀ j, Transform_SSE2_AoS pIn1 pOut n fScale j =
        Transform_SSE2_AoS pIn2 pOut n fScale j) ∧
    (∀ (pIn pOut : ℕ → AoSVertex F) (j : ℕ), n ≤ j →
      Transform_SSE2_AoS pIn pOut n fScale j = pOut j) ∧
    (∀ (pIn1 pIn2 pOut : ℕ → AoSVertex F),
      (∀ j < n, pIn1 j = pIn2 j) →
      ∀ j, Transform_AVX_AoS pIn1 pOut n fScale j =
        Transform_AVX_AoS pIn2 pOut n fScale j) ∧
    (∀ (pIn pOut : ℕ → AoSVertex F) (j : ℕ), n ≤ j →
      Transform_AVX_AoS pIn pOut n fScale j = pOut j) ∧
    (∀ (pIn1 pIn2 pOut : SoAVertexs F),
      (∀ j < n, pIn1.x j = pIn2.x j ∧ pIn1.y j = pIn2.y j ∧
        pIn1.z j = pIn2.z j) →
      ∀ j,
        (Transform_SSE2_SoA pIn1 pOut n fScale).x j =
          (Transform_SSE2_SoA pIn2 pOut n fScale).x j ∧
        (Transform_SSE2_SoA pIn1 pOut n fScale).y j =
          (Transform_SSE2_SoA pIn2 pOut n fScale).y j ∧
        (Transform_SSE2_SoA pIn1 pOut n fScale).z j =
          (Transform_SSE2_SoA pIn2 pOut n fScale).z j) ∧
    (∀ (pIn pOut : SoAVertexs F) (j : ℕ), n ≤ j →
      (Transform_SSE2_SoA pIn pOut n fScale).x j = pOut.x j ∧
      (Transform_SSE2_SoA pIn pOut n fScale).y j = pOut.y j ∧
      (Transform_SSE2_SoA pIn pOut n fScale).z j = pOut.z j) ∧
    (∀ (pIn1 pIn2 pOut : SoAVertexs F),
      (∀ j < n, pIn1.x j = pIn2.x j ∧ pIn1.y j = pIn2.y j ∧
        pIn1.z j = pIn2.z j) →
      ∀ j,
        (Transform_AVX_SoA pIn1 pOut n fScale).x j =
          (Transform_AVX_SoA pIn2 pOut n fScale).x j ∧
        (Transform_AVX_SoA pIn1 pOut n fScale).y j =
          (Transform_AVX_SoA pIn2 pOut n fScale).y j ∧
        (Transform_AVX_SoA pIn1 pOut n fScale).z j =
          (Transform_AVX_SoA pIn2 pOut n fScale).z j) ∧
    (∀ (pIn pOut : SoAVertexs F) (j : ℕ), n ≤ j →
      (Transform_AVX_SoA pIn pOut n fScale).x j = pOut.x j ∧
      (Transform_AVX_SoA pIn pOut n fScale).y j = pOut.y j ∧
      (Transform_AVX_SoA pIn pOut n fScale).z j = pOut.z j) := by
  refine ⟨?_, ?_, ?_, ?_, ?_, ?_, ?_, ?_⟩
  · intro pIn1 pIn2 pOut hagree j
    simp only [Transform_SSE2_AoS]
    rw [sse2AoS_go_apply, sse2AoS_go_apply]
    by_cases hj : 0 ≤ j ∧ j < 0 + n
    · rw [if_pos hj, if_pos hj, hagree j (by omega)]
    · rw [if_neg hj, if_neg hj]
  · intro pIn pOut j hj
    simp only [Transform_SSE2_AoS]
    rw [sse2AoS_go_apply, if_neg (by omega)]
  · intro pIn1 pIn2 pOut hagree j
    simp only [Transform_AVX_AoS]
    rw [avxAoS_go_apply, avxAoS_go_apply]
    by_cases hj : 0 ≤ j ∧ j < 0 + 2 * (n / 2)
    · rw [if_pos hj, if_pos hj, hagree j (by omega)]
    · rw [if_neg hj, if_neg hj]
  · intro pIn pOut j hj
    simp only [Transform_AVX_AoS]
    rw [avxAoS_go_apply, if_neg (by omega)]
  · intro pIn1 pIn2 pOut hagree j
    obtain ⟨h11, h12, h13⟩ :=
      sse2SoA_go_apply fScale pIn1.x pIn1.y pIn1.z n 0
        pOut.x pOut.y pOut.z j
    obtain ⟨h21, h22, h23⟩ :=
      sse2SoA_go_apply fScale pIn2.x pIn2.y pIn2.z n 0
        pOut.x pOut.y pOut.z j
    simp only [Transform_SSE2_SoA]
    by_cases hj : 0 ≤ j ∧ j < 0 + 4 * (n / 4)
    · refine ⟨?_, ?_, ?_⟩
      · rw [h11, h21, if_pos hj, if_pos hj, (hagree j (by omega)).1]
      · rw [h12, h22, if_pos hj, if_pos hj, (hagree j (by omega)).2.1]
      · rw [h13, h23, if_pos hj, if_pos hj, (hagree j (by omega)).2.2]
    · refine ⟨?_, ?_, ?_⟩
      · rw [h11, h21, if_neg hj, if_neg hj]
      · rw [h12, h22, if_neg hj, if_neg hj]
      · rw [h13, h23, if_neg hj, if_neg hj]
  · intro pIn pOut j hj
    obtain ⟨h1, h2, h3⟩ :=
      sse2SoA_go_apply fScale pIn.x pIn.y pIn.z n 0
        pOut.x pOut.y pOut.z j
    simp only [Transform_SSE2_SoA]
    exact ⟨by rw [h1, if_neg (by omega)], by rw [h2, if_neg (by omega)],
      by rw [h3, if_neg (by omega)]⟩
  · intro pIn1 pIn2 pOut hagree j
    obtain ⟨h11, h12, h13⟩ :=
      avxSoA_go_apply fScale pIn1.x pIn1.y pIn1.z n 0
        pOut.x pOut.y pOut.z j
    obtain ⟨h21, h22, h23⟩ :=
      avxSoA_go_apply fScale pIn2.x pIn2.y pIn2.z n 0
        pOut.x pOut.y pOut.z j
    simp only [Transform_AVX_SoA]
    by_cases hj : 0 ≤ j ∧ j < 0 + 8 * (n / 8)
    · refine ⟨?_, ?_, ?_⟩
      · rw [h11, h21, if_pos hj, if_pos hj, (hagree j (by omega)).1]
      · rw [h12, h22, if_pos hj, if_pos hj, (hagree j (by omega)).2.1]
      · rw [h13, h23, if_pos hj, if_pos hj, (hagree j (by omega)).2.2]
    · refine ⟨?_, ?_, ?_⟩
      · rw [h11, h21, if_neg hj, if_neg hj]
      · rw [h12, h22, if_neg hj, if_neg hj]
      · rw [h13, h23, if_neg hj, if_neg hj]
  · intro pIn pOut j hj
    obtain ⟨h1, h2, h3⟩ :=
      avxSoA_go_apply fScale pIn.x pIn.y pIn.z n 0
        pOut.x pOut.y pOut.z j
    simp only [Transform_AVX_SoA]
    exact ⟨by rw [h1, if_neg (by omega)], by rw [h2, if_neg (by omega)],
      by rw [h3, if_neg (by omega)]⟩

/-- Second AoS input differing from `exAoS` only at indices `≥ 5`, used to
witness the read bound of C9. -/
def exAoS2 : ℕ → AoSVertex ℕ := fun j =>
  if j < 5 then exAoS j else ⟨100, 100, 100, 100⟩

/-- Second SoA input differing from `exSoA` only at indices `≥ 5`, used to
witness the read bound of C9. -/
def exSoA2 : SoAVertexs ℕ :=
  ⟨fun j => if j < 5 then exSoA.x j else 100,
   fun j => if j < 5 then exSoA.y j else 100,
   fun j => if j < 5 then exSoA.z j else 100⟩

/-- Closed witness for C9 at count 5 (not a multiple of 2, 4 or 8): inputs
agreeing below 5 give the same outputs, and index 5 of the output is left
as it was. -/
theorem claim_C9_access_bounded_witness :
    ((∀ j < 5, exAoS j = exAoS2 j) ∧
      (∀ j < 5, exSoA.x j = exSoA2.x j ∧ exSoA.y j = exSoA2.y j ∧
        exSoA.z j = exSoA2.z j) ∧ (5:ℕ) ≤ 5) ∧
    Transform_SSE2_AoS exAoS exAoSOut 5 10 3 =
      Transform_SSE2_AoS exAoS2 exAoSOut 5 10 3 ∧
    Transform_AVX_AoS exAoS exAoSOut 5 10 3 =
      Transform_AVX_AoS exAoS2 exAoSOut 5 10 3 ∧
    (Transform_SSE2_SoA exSoA exSoAOut 5 10).x 3 =
      (Transform_SSE2_SoA exSoA2 exSoAOut 5 10).x 3 ∧
    (Transform_AVX_SoA exSoA exSoAOut 5 10).z 3 =
      (Transform_AVX_SoA exSoA2 exSoAOut 5 10).z 3 ∧
    Transform_SSE2_AoS exAoS exAoSOut 5 10 5 = exAoSOut 5 ∧
    Transform_AVX_AoS exAoS exAoSOut 5 10 5 = exAoSOut 5 ∧
    (Transform_SSE2_SoA exSoA exSoAOut 5 10).y 5 = exSoAOut.y 5 ∧
    (Transform_AVX_SoA exSoA exSoAOut 5 10).y 5 = exSoAOut.y 5 := by
  have h := claim_C9_access_bounded (F := ℕ) 5 10
  exact ⟨⟨by decide, by decide, by decide⟩,
    h.1 exAoS exAoS2 exAoSOut (by decide) 3,
    h.2.2.1 exAoS exAoS2 exAoSOut (by decide) 3,
    (h.2.2.2.2.1 exSoA exSoA2 exSoAOut (by decide) 3).1,
    (h.2.2.2.2.2.2.1 exSoA exSoA2 exSoAOut (by decide) 3).2.2,
    h.2.1 exAoS exAoSOut 5 (by decide),
    h.2.2.2.1 exAoS exAoSOut 5 (by decide),
    (h.2.2.2.2.2.1 exSoA exSoAOut 5 (by decide)).2.1,
    (h.2.2.2.2.2.2.2 exSoA exSoAOut 5 (by decide)).2.1⟩

/-- C10: the SSE2/AoS and AVX/AoS kernels scale `w` along with x, y, z:
every vertex they process (all `i < n` for SSE2; `i < 2 * (n / 2)` for AVX)
ends with `w = input.w * scale`, because the whole 16-byte vertex is
loaded, multiplied and stored as one vector. -/
theorem claim_C10_simd_aos_w_scaled {F : Type} [Mul F]
    (pIn pOut : ℕ → AoSVertex F) (n : ℕ) (fScale : F) :
    (∀ i < n,
      (Transform_SSE2_AoS pIn pOut n fScale i).w = (pIn i).w * fScale) ∧
    (∀ i < 2 * (n / 2),
      (Transform_AVX_AoS pIn pOut n fScale i).w = (pIn i).w * fScale) := by
  constructor
  · intro i hi
    simp only [Transform_SSE2_AoS]
    rw [sse2AoS_go_apply, if_pos (by omega)]
    rfl
  · intro i hi
    simp only [Transform_AVX_AoS]
    rw [avxAoS_go_apply, if_pos (by omega)]
    rfl

/-- Closed witness for C10 at count 2, index 1, scale 10. -/
theorem claim_C10_simd_aos_w_scaled_witness :
    ((1:ℕ) < 2 ∧ (1:ℕ) < 2 * (2 / 2)) ∧
    (Transform_SSE2_AoS exAoS exAoSOut 2 10 1).w = (exAoS 1).w * 10 ∧
    (Transform_AVX_AoS exAoS exAoSOut 2 10 1).w = (exAoS 1).w * 10 := by
  have h := claim_C10_simd_aos_w_scaled exAoS exAoSOut 2 10
  exact ⟨⟨by decide, by decide⟩, h.1 1 (by decide), h.2 1 (by decide)⟩
